import Mathlib

/-!
Verification development for the MCP sampling server (`src/index.ts`,
low-level-server variant with cache, rate limiting, session validation,
health endpoint and periodic cleanup).

JavaScript objects used as string-keyed maps (`searchCache`, `rateLimits`,
`transports`) are embedded as association lists `List (String × α)` with
lookup / assign / delete operations mirroring property access, property
assignment and the `delete` operator.  Timestamps (`Date.now()`) and
durations are embedded as `Int` (milliseconds), so that subtractions such
as `now - entry.windowStart` have exactly the JavaScript integer
semantics.  Request counts are `Nat`.
-/

namespace Mcp

/-- Property read `m[k]`: the value stored under `k`, if any. -/
def getKey {α : Type} : List (String × α) → String → Option α
  | [], _ => none
  | (k', v) :: rest, k => if k' = k then some v else getKey rest k

/-- Property assignment `m[k] = v`: replaces the binding for `k` in place,
or appends a fresh one. -/
def setKey {α : Type} : List (String × α) → String → α → List (String × α)
  | [], k, v => [(k, v)]
  | (k', v') :: rest, k, v =>
    if k' = k then (k, v) :: rest else (k', v') :: setKey rest k v

/-- The `delete m[k]` operator: removes the binding for `k`. -/
def eraseKey {α : Type} (m : List (String × α)) (k : String) : List (String × α) :=
  m.filter (fun p => p.fst ≠ k)

theorem getKey_setKey_self {α : Type} (m : List (String × α)) (k : String) (v : α) :
    getKey (setKey m k v) k = some v := by
  induction m with
  | nil => simp [setKey, getKey]
  | cons p rest ih =>
    obtain ⟨k', v'⟩ := p
    by_cases h : k' = k
    · simp [setKey, getKey, h]
    · simp [setKey, getKey, h, ih]

theorem getKey_setKey_ne {α : Type} (m : List (String × α)) (k k' : String) (v : α)
    (h : k ≠ k') : getKey (setKey m k v) k' = getKey m k' := by
  induction m with
  | nil => simp [setKey, getKey, h]
  | cons p rest ih =>
    obtain ⟨k0, v0⟩ := p
    by_cases h0 : k0 = k
    · subst h0; simp [setKey, getKey, h]
    · simp [setKey, getKey, h0, ih]

theorem getKey_eraseKey_self {α : Type} (m : List (String × α)) (k : String) :
    getKey (eraseKey m k) k = none := by
  induction m with
  | nil => simp [eraseKey, getKey]
  | cons p rest ih =>
    obtain ⟨k0, v0⟩ := p
    by_cases h0 : k0 = k
    · simpa [eraseKey, getKey, h0] using ih
    · simpa [eraseKey, getKey, h0] using ih

/-! ## Result cache (`searchCache`) -/

/-- A cache entry: `{ data, timestamp, ttl }` (`src/index.ts`, `CacheEntry`). -/
structure CacheEntry (α : Type) where
  data : α
  timestamp : Int
  ttl : Int
deriving DecidableEq

/-- The cache map `searchCache`, keyed by strings. -/
abbrev Cache (α : Type) : Type := List (String × CacheEntry α)

/-- `CACHE_TTL = 300000` (5 minutes, in milliseconds). -/
def CACHE_TTL : Int := 300000

/-- `getFromCache(key)`: returns the cached data unless the entry is
absent or expired; an expired entry is deleted and the lookup misses.
The mutated cache is returned as the second component. -/
def getFromCache {α : Type} (cache : Cache α) (now : Int) (key : String) :
    Option α × Cache α :=
  match getKey cache key with
  | none => (none, cache)
  | some entry =>
    if now > entry.timestamp + entry.ttl then (none, eraseKey cache key)
    else (some entry.data, cache)

/-- `saveToCache(key, data, ttl = CACHE_TTL)`: stores
`{ data, timestamp: Date.now(), ttl }` under `key`. -/
def saveToCache {α : Type} (cache : Cache α) (now : Int) (key : String)
    (data : α) (ttl : Int) : Cache α :=
  setKey cache key ⟨data, now, ttl⟩

/-- `cleanupCache()`: deletes every entry with `now > entry.timestamp + entry.ttl`. -/
def cleanupCache {α : Type} (cache : Cache α) (now : Int) : Cache α :=
  cache.filter (fun p => ¬ (now > p.snd.timestamp + p.snd.ttl))

/-! ## Rate limiting (`rateLimits`) -/

/-- A rate-limit window: `{ requests, windowStart }` (`RateLimitEntry`). -/
structure RateLimitEntry where
  requests : Nat
  windowStart : Int
deriving DecidableEq

/-- The per-address window map `rateLimits`. -/
abbrev RateLimits : Type := List (String × RateLimitEntry)

/-- `RATE_LIMIT_WINDOW = 60000` (1 minute, in milliseconds). -/
def RATE_LIMIT_WINDOW : Int := 60000

/-- `RATE_LIMIT_MAX_REQUESTS = 100` (100 requests per minute). -/
def RATE_LIMIT_MAX_REQUESTS : Nat := 100

/-- `checkRateLimit(ip)`: admits and starts a fresh window on first sight
or once `now - windowStart >= RATE_LIMIT_WINDOW`; otherwise admits while
`requests < RATE_LIMIT_MAX_REQUESTS` (incrementing) and denies after. -/
def checkRateLimit (rl : RateLimits) (now : Int) (ip : String) :
    Bool × RateLimits :=
  match getKey rl ip with
  | none => (true, setKey rl ip ⟨1, now⟩)
  | some entry =>
    if now - entry.windowStart ≥ RATE_LIMIT_WINDOW then
      (true, setKey rl ip ⟨1, now⟩)
    else if entry.requests < RATE_LIMIT_MAX_REQUESTS then
      (true, setKey rl ip ⟨entry.requests + 1, entry.windowStart⟩)
    else
      (false, rl)

/-- `cleanupRateLimits()`: deletes every window with
`now - entry.windowStart >= RATE_LIMIT_WINDOW`. -/
def cleanupRateLimits (rl : RateLimits) (now : Int) : RateLimits :=
  rl.filter (fun p => ¬ (now - p.snd.windowStart ≥ RATE_LIMIT_WINDOW))

/-- Runs `checkRateLimit` once per element of the time list, threading the
window map; returns the per-call admission results and the final map. -/
def runCalls (rl : RateLimits) (ip : String) : List Int → List Bool × RateLimits
  | [] => ([], rl)
  | t :: ts =>
    let step := checkRateLimit rl t ip
    let rest := runCalls step.snd ip ts
    (step.fst :: rest.fst, rest.snd)

/-- `Math.ceil(a / b)` for integer `a ≥ 0` and `b > 0`. -/
def mathCeilDiv (a b : Int) : Int := (a + b - 1) / b

/-- The body of the 429 response produced by the rate-limiting middleware:
code, message and the `retryAfter` hint (in seconds). -/
structure RateLimitDenial where
  status : Nat
  code : Int
  message : String
  retryAfter : Int
deriving DecidableEq

/-- The global rate-limiting middleware: consults `checkRateLimit` and on
denial responds 429 with `retryAfter: Math.ceil(RATE_LIMIT_WINDOW / 1000)`;
otherwise falls through (`none`). -/
def rateLimitMiddleware (rl : RateLimits) (now : Int) (ip : String) :
    Option RateLimitDenial × RateLimits :=
  let step := checkRateLimit rl now ip
  if step.fst then (none, step.snd)
  else
    (some ⟨429, -32000, "Too many requests. Please try again later.",
      mathCeilDiv RATE_LIMIT_WINDOW 1000⟩, step.snd)

/-! ## Session-id validation (`isValidSessionId`) -/

/-- A character of the regex class `[a-f0-9]` (lowercase hex digit). -/
def isLowerHexDigit (c : Char) : Bool :=
  (decide ('0' ≤ c) && decide (c ≤ '9')) || (decide ('a' ≤ c) && decide (c ≤ 'f'))

/-- Splits a character list at every hyphen; always returns at least one
(possibly empty) group. -/
def splitOnDash : List Char → List (List Char)
  | [] => [[]]
  | c :: rest =>
    let gs := splitOnDash rest
    if c = '-' then [] :: gs else (c :: gs.headI) :: gs.tail

/-- A hyphen-separated group of exactly `n` lowercase hex digits. -/
def groupOk (n : Nat) (g : List Char) : Bool :=
  decide (g.length = n) && g.all isLowerHexDigit

/-- `isValidSessionId(sessionId)`: the test of the anchored regex
`[a-f0-9]{8}-[a-f0-9]{4}-[a-f0-9]{4}-[a-f0-9]{4}-[a-f0-9]{12}` (lowercase
hex groups separated by hyphens; hex digits exclude the hyphen, so the
regex is equivalent to splitting on hyphens and checking the five groups). -/
def isValidSessionId (s : String) : Bool :=
  match splitOnDash s.data with
  | [a, b, c, d, e] =>
    groupOk 8 a && groupOk 4 b && groupOk 4 c && groupOk 4 d && groupOk 12 e
  | _ => false

/-- Rejoins hyphen-separated groups (left inverse of `splitOnDash`). -/
def joinDash : List (List Char) → List Char
  | [] => []
  | [g] => g
  | g :: gs => g ++ '-' :: joinDash gs

/-- The language the spec describes for session identifiers: five
hyphen-separated groups of lowercase hexadecimal digits with lengths
8, 4, 4, 4 and 12. -/
def MatchesUuidPattern (s : String) : Prop :=
  ∃ a b c d e : List Char,
    s.data = a ++ '-' :: (b ++ '-' :: (c ++ '-' :: (d ++ '-' :: e))) ∧
    a.length = 8 ∧ b.length = 4 ∧ c.length = 4 ∧ d.length = 4 ∧ e.length = 12 ∧
    (∀ ch ∈ a ++ b ++ c ++ d ++ e, isLowerHexDigit ch = true)

/-- Modelled from the spec: the output format of `randomUUID` (from
`node:crypto`, not part of this repository's sources), which the spec
describes as "a 128-bit random identifier formatted per a fixed textual
pattern".  `randomUUID` returns the canonical RFC 4122 textual form:
five lowercase hexadecimal groups of lengths 8-4-4-4-12 separated by
hyphens, where the third group starts with the version digit and the
fourth group starts with a variant digit in 8, 9, a or b. -/
def RandomUUIDOutput (s : String) : Prop :=
  ∃ a b c d e : List Char,
    s.data = a ++ '-' :: (b ++ '-' :: (c ++ '-' :: (d ++ '-' :: e))) ∧
    a.length = 8 ∧ b.length = 4 ∧ c.length = 4 ∧ d.length = 4 ∧ e.length = 12 ∧
    (∀ ch ∈ a ++ b ++ c ++ d ++ e, isLowerHexDigit ch = true) ∧
    (∃ v, c.head? = some v ∧ v ∈ ['1', '2', '3', '4', '5']) ∧
    (∃ w, d.head? = some w ∧ w ∈ ['8', '9', 'a', 'b'])

theorem splitOnDash_ne_nil (cs : List Char) : splitOnDash cs ≠ [] := by
  cases cs with
  | nil => simp [splitOnDash]
  | cons c rest =>
    by_cases hc : c = '-' <;> simp [splitOnDash, hc]

theorem splitOnDash_cons_dash (rest : List Char) :
    splitOnDash ('-' :: rest) = [] :: splitOnDash rest := by
  simp [splitOnDash]

theorem splitOnDash_cons_ne (c : Char) (rest : List Char) (hc : c ≠ '-') :
    splitOnDash (c :: rest)
      = (c :: (splitOnDash rest).headI) :: (splitOnDash rest).tail := by
  simp [splitOnDash, hc]

theorem joinDash_cons_cons (c : Char) (g : List Char) (gs : List (List Char)) :
    joinDash ((c :: g) :: gs) = c :: joinDash (g :: gs) := by
  cases gs <;> simp [joinDash]

theorem joinDash_splitOnDash (cs : List Char) : joinDash (splitOnDash cs) = cs := by
  induction cs with
  | nil => simp [splitOnDash, joinDash]
  | cons c rest ih =>
    rcases h : splitOnDash rest with _ | ⟨g, gs⟩
    · exact absurd h (splitOnDash_ne_nil rest)
    · rw [h] at ih
      by_cases hc : c = '-'
      · subst hc
        rw [splitOnDash_cons_dash, h]
        simpa [joinDash] using ih
      · rw [splitOnDash_cons_ne c rest hc, h]
        simp only [List.headI, List.tail_cons]
        rw [joinDash_cons_cons, ih]

theorem splitOnDash_no_dash (cs : List Char) (g : List Char)
    (hg : g ∈ splitOnDash cs) : '-' ∉ g := by
  induction cs generalizing g with
  | nil =>
    simp [splitOnDash] at hg
    subst hg; simp
  | cons c rest ih =>
    rcases h : splitOnDash rest with _ | ⟨g0, gs⟩
    · exact absurd h (splitOnDash_ne_nil rest)
    by_cases hc : c = '-'
    · subst hc
      rw [splitOnDash_cons_dash, h] at hg
      rcases List.mem_cons.mp hg with hg1 | hg1
      · subst hg1; simp
      · exact ih g (h ▸ hg1)
    · rw [splitOnDash_cons_ne c rest hc, h] at hg
      simp only [List.headI, List.tail_cons] at hg
      rcases List.mem_cons.mp hg with hg1 | hg1
      · subst hg1
        intro hmem
        rcases List.mem_cons.mp hmem with hd | hd
        · exact hc hd.symm
        · exact ih g0 (h ▸ List.mem_cons_self g0 gs) hd
      · exact ih g (h ▸ List.mem_cons_of_mem g0 hg1)

theorem splitOnDash_no_dash_id (g : List Char) (hg : '-' ∉ g) :
    splitOnDash g = [g] := by
  induction g with
  | nil => simp [splitOnDash]
  | cons c rest ih =>
    have hc : c ≠ '-' := fun h => hg (h ▸ List.mem_cons_self c rest)
    have hrest : '-' ∉ rest := fun h => hg (List.mem_cons_of_mem c h)
    rw [splitOnDash_cons_ne c rest hc, ih hrest]
    simp

theorem splitOnDash_append (a rest : List Char) (ha : '-' ∉ a) :
    splitOnDash (a ++ '-' :: rest) = a :: splitOnDash rest := by
  induction a with
  | nil =>
    simpa using splitOnDash_cons_dash rest
  | cons c a0 ih =>
    have hc : c ≠ '-' := fun h => ha (h ▸ List.mem_cons_self c a0)
    have ha0 : '-' ∉ a0 := fun h => ha (List.mem_cons_of_mem c h)
    rw [List.cons_append, splitOnDash_cons_ne c _ hc, ih ha0]
    simp

theorem hexGroup_no_dash (g : List Char) (hg : ∀ ch ∈ g, isLowerHexDigit ch = true) :
    '-' ∉ g := by
  intro hmem
  have := hg '-' hmem
  simp [isLowerHexDigit] at this

/-- Characterization of `isValidSessionId`: it accepts exactly the strings
of the 8-4-4-4-12 lowercase hexadecimal pattern. -/
theorem isValidSessionId_iff (s : String) :
    isValidSessionId s = true ↔ MatchesUuidPattern s := by
  constructor
  · intro hv
    unfold isValidSessionId at hv
    rcases hsplit : splitOnDash s.data with
        _ | ⟨a, _ | ⟨b, _ | ⟨c, _ | ⟨d, _ | ⟨e, _ | ⟨f, fs⟩⟩⟩⟩⟩⟩ <;>
      rw [hsplit] at hv
    all_goals try exact Bool.noConfusion hv
    have hv2 : (groupOk 8 a && groupOk 4 b && groupOk 4 c && groupOk 4 d &&
        groupOk 12 e) = true := hv
    simp only [groupOk, Bool.and_eq_true, decide_eq_true_eq,
      List.all_eq_true] at hv2
    obtain ⟨⟨⟨⟨⟨hal, hah⟩, hbl, hbh⟩, hcl, hch⟩, hdl, hdh⟩, hel, heh⟩ := hv2
    have hjoin := joinDash_splitOnDash s.data
    rw [hsplit] at hjoin
    refine ⟨a, b, c, d, e, ?_, hal, hbl, hcl, hdl, hel, ?_⟩
    · rw [← hjoin]
      simp [joinDash]
    · intro ch hch2
      simp only [List.mem_append] at hch2
      rcases hch2 with ((((h | h) | h) | h) | h)
      · exact hah ch h
      · exact hbh ch h
      · exact hch ch h
      · exact hdh ch h
      · exact heh ch h
  · rintro ⟨a, b, c, d, e, hdata, hal, hbl, hcl, hdl, hel, hhex⟩
    have hhexa : ∀ ch ∈ a, isLowerHexDigit ch = true := fun ch h =>
      hhex ch (by simp [List.mem_append, h])
    have hhexb : ∀ ch ∈ b, isLowerHexDigit ch = true := fun ch h =>
      hhex ch (by simp [List.mem_append, h])
    have hhexc : ∀ ch ∈ c, isLowerHexDigit ch = true := fun ch h =>
      hhex ch (by simp [List.mem_append, h])
    have hhexd : ∀ ch ∈ d, isLowerHexDigit ch = true := fun ch h =>
      hhex ch (by simp [List.mem_append, h])
    have hhexe : ∀ ch ∈ e, isLowerHexDigit ch = true := fun ch h =>
      hhex ch (by simp [List.mem_append, h])
    unfold isValidSessionId
    rw [hdata,
      splitOnDash_append a _ (hexGroup_no_dash a hhexa),
      splitOnDash_append b _ (hexGroup_no_dash b hhexb),
      splitOnDash_append c _ (hexGroup_no_dash c hhexc),
      splitOnDash_append d _ (hexGroup_no_dash d hhexd),
      splitOnDash_no_dash_id e (hexGroup_no_dash e hhexe)]
    show (groupOk 8 a && groupOk 4 b && groupOk 4 c && groupOk 4 d &&
      groupOk 12 e) = true
    simp only [groupOk, Bool.and_eq_true, decide_eq_true_eq, List.all_eq_true]
    exact ⟨⟨⟨⟨⟨hal, hhexa⟩, hbl, hhexb⟩, hcl, hhexc⟩, hdl, hhexd⟩, hel, hhexe⟩

/-- Every character of an accepted session id is a hyphen or a lowercase
hex digit. -/
theorem isValidSessionId_chars (s : String) (hv : isValidSessionId s = true) :
    ∀ ch ∈ s.data, ch = '-' ∨ isLowerHexDigit ch = true := by
  obtain ⟨a, b, c, d, e, hdata, _, _, _, _, _, hhex⟩ :=
    (isValidSessionId_iff s).mp hv
  intro ch hch
  rw [hdata] at hch
  simp only [List.mem_append, List.mem_cons] at hch
  rcases hch with h | h | h | h | h | h | h | h | h
  · exact Or.inr (hhex ch (by simp [List.mem_append, h]))
  · exact Or.inl h
  · exact Or.inr (hhex ch (by simp [List.mem_append, h]))
  · exact Or.inl h
  · exact Or.inr (hhex ch (by simp [List.mem_append, h]))
  · exact Or.inl h
  · exact Or.inr (hhex ch (by simp [List.mem_append, h]))
  · exact Or.inl h
  · exact Or.inr (hhex ch (by simp [List.mem_append, h]))

/-- A string containing an uppercase hex letter is rejected. -/
theorem isValidSessionId_uppercase (s : String) (c : Char) (hc : c ∈ s.data)
    (hA : 'A' ≤ c) (hF : c ≤ 'F') : isValidSessionId s = false := by
  cases hb : isValidSessionId s with
  | false => rfl
  | true =>
    exfalso
    rcases isValidSessionId_chars s hb c hc with hdash | hhex
    · subst hdash
      exact absurd hA (by decide)
    · simp only [isLowerHexDigit, Bool.or_eq_true, Bool.and_eq_true,
        decide_eq_true_eq] at hhex
      rcases hhex with ⟨h1, h2⟩ | ⟨h1, h2⟩
      · exact absurd (le_trans hA h2) (by decide)
      · exact absurd (le_trans h1 hF) (by decide)

/-- Every `randomUUID` output passes the format check. -/
theorem randomUUID_valid (s : String) (h : RandomUUIDOutput s) :
    isValidSessionId s = true := by
  obtain ⟨a, b, c, d, e, hdata, hal, hbl, hcl, hdl, hel, hhex, _, _⟩ := h
  exact (isValidSessionId_iff s).mpr ⟨a, b, c, d, e, hdata, hal, hbl, hcl, hdl, hel, hhex⟩

/-! ## Session registry (`transports`) and the `/mcp` endpoints -/

/-- The observable state of a `StreamableHTTPServerTransport`: its
`sessionId` property (`undefined` until initialization). -/
structure Transport where
  sessionId : Option String
deriving DecidableEq

/-- The session registry `transports`, keyed by session id. -/
abbrev Transports : Type := List (String × Transport)

/-- A JSON-RPC error envelope as produced by `createErrorResponse`,
together with the HTTP status it is sent with. -/
structure ErrResp where
  status : Nat
  code : Int
  message : String
deriving DecidableEq

/-- What the POST `/mcp` handler goes on to do when it does not reject:
route the request to an existing session's transport, or create (and,
once initialized, register) a brand-new transport. -/
inductive PostAction where
  | handle (sid : String) : PostAction
  | startSession (newSid : String) : PostAction
deriving DecidableEq

/-- The POST `/mcp` handler (`app.post("/mcp")`): body validation, then
session-id format validation, then transport resolution.  `bodyValid`
embeds the `req.body && typeof req.body === "object"` check, `isInit`
the `isInitializeRequest(req.body)` check, `sidHeader` the
`mcp-session-id` header (`none` when absent), and `freshSid` the id that
`randomUUID()` would produce for a new transport.  An empty header value
is falsy in JavaScript, so it is treated like an absent header. -/
def postMcp (bodyValid isInit : Bool) (sidHeader : Option String)
    (m : Transports) (freshSid : String) : Except ErrResp PostAction × Transports :=
  if bodyValid = false then
    (.error ⟨400, -32600, "Invalid Request: Body must be a valid JSON object"⟩, m)
  else
    match sidHeader with
    | none =>
      if isInit then
        (.ok (.startSession freshSid), setKey m freshSid ⟨some freshSid⟩)
      else
        (.error ⟨400, -32000,
          "Bad Request: No valid session ID provided or not an initialize request"⟩, m)
    | some sid =>
      if sid = "" then
        if isInit then
          (.ok (.startSession freshSid), setKey m freshSid ⟨some freshSid⟩)
        else
          (.error ⟨400, -32000,
            "Bad Request: No valid session ID provided or not an initialize request"⟩, m)
      else if isValidSessionId sid = false then
        (.error ⟨400, -32000, "Invalid session ID format"⟩, m)
      else
        match getKey m sid with
        | some tr =>
          if tr.sessionId = some sid then (.ok (.handle sid), m)
          else (.error ⟨400, -32000, "Session expired or invalid"⟩, eraseKey m sid)
        | none =>
          (.error ⟨400, -32000,
            "Bad Request: No valid session ID provided or not an initialize request"⟩, m)

/-- The GET `/mcp` handler (`app.get("/mcp")`): missing id, then format,
then registry lookup; on success the request is handed to the session's
transport (the SSE stream attach). -/
def getMcp (sidHeader : Option String) (m : Transports) :
    Except ErrResp String × Transports :=
  match sidHeader with
  | none => (.error ⟨400, -32000, "Bad Request: No session ID provided"⟩, m)
  | some sid =>
    if sid = "" then
      (.error ⟨400, -32000, "Bad Request: No session ID provided"⟩, m)
    else if isValidSessionId sid = false then
      (.error ⟨400, -32000, "Bad Request: Invalid session ID format"⟩, m)
    else if getKey m sid = none then
      (.error ⟨400, -32000, "Bad Request: Session not found or expired"⟩, m)
    else
      (.ok sid, m)

/-- The DELETE `/mcp` handler (`app.delete("/mcp")`): missing id, then
format, then registry lookup; on success the request is handed to the
transport and the registry entry is removed (the deferred
`setTimeout`/`onclose` cleanup folded into the step's final state). -/
def deleteMcp (sidHeader : Option String) (m : Transports) :
    Except ErrResp String × Transports :=
  match sidHeader with
  | none => (.error ⟨400, -32000, "Bad Request: No session ID provided"⟩, m)
  | some sid =>
    if sid = "" then
      (.error ⟨400, -32000, "Bad Request: No session ID provided"⟩, m)
    else if isValidSessionId sid = false then
      (.error ⟨400, -32000, "Bad Request: Invalid session ID format"⟩, m)
    else if getKey m sid = none then
      (.error ⟨400, -32000, "Bad Request: Session not found or already terminated"⟩, m)
    else
      (.ok sid, eraseKey m sid)

/-! ## Reaper (`setInterval` cleanup) and health endpoint -/

/-- The keep-condition of the periodic transport sweep: the entry is
deleted when `!transport.sessionId || transport.sessionId !== sessionId`
(an unset or empty `sessionId` property, or one that disagrees with the
registry key). -/
def transportHealthy (sid : String) (tr : Transport) : Bool :=
  match tr.sessionId with
  | none => false
  | some s => decide (s ≠ "") && decide (s = sid)

/-- The transport sweep of the `setInterval` cleanup pass. -/
def cleanupTransports (m : Transports) : Transports :=
  m.filter (fun p => transportHealthy p.fst p.snd)

/-- A tool call result: `{ content: [{ type: "text", text }] }`, embedded
by its single text payload. -/
structure ToolResult where
  text : String
deriving DecidableEq

/-- The whole mutable server state: `transports`, `searchCache` and
`rateLimits`. -/
structure ServerState where
  transports : Transports
  searchCache : Cache ToolResult
  rateLimits : RateLimits

/-- One pass of the periodic cleanup task (`setInterval(..., 300000)`):
sweep defunct transports, then `cleanupCache()`, then
`cleanupRateLimits()`. -/
def reaperPass (st : ServerState) (now : Int) : ServerState :=
  { transports := cleanupTransports st.transports,
    searchCache := cleanupCache st.searchCache now,
    rateLimits := cleanupRateLimits st.rateLimits now }

/-- The JSON body of the `/health` response. -/
structure HealthBody where
  status : String
  activeSessions : Nat
  cacheEntries : Nat
  uptime : Int
  memUsedMB : Int
  memTotalMB : Int
deriving DecidableEq

/-- Serving `GET /health`: the request first passes the global
rate-limiting middleware (which may mutate `rateLimits` and may deny),
then the handler reads `Object.keys(transports).length` and
`Object.keys(searchCache).length` and echoes process uptime and memory
figures.  The handler itself writes nothing. -/
def serveHealth (st : ServerState) (now : Int) (ip : String)
    (uptime memUsed memTotal : Int) :
    Except RateLimitDenial HealthBody × ServerState :=
  match rateLimitMiddleware st.rateLimits now ip with
  | (some denial, rl2) => (.error denial, { st with rateLimits := rl2 })
  | (none, rl2) =>
    (.ok ⟨"ok", st.transports.length, st.searchCache.length, uptime, memUsed, memTotal⟩,
     { st with rateLimits := rl2 })

/-! ## The `search_videos` tool handler -/

/-- A YouTube search result item: the snippet fields the handler reads
(each may be `undefined`). -/
structure VideoItem where
  title : Option String
  description : Option String
  thumbnailUrl : Option String
  channelTitle : Option String
  publishedAt : Option String
  videoId : Option String
deriving DecidableEq

/-- JavaScript `x || d` for an optional string `x`: `undefined` and the
empty string are falsy. -/
def jsOrDefault (o : Option String) (d : String) : String :=
  match o with
  | none => d
  | some s => if s = "" then d else s

/-- `String.prototype.toLowerCase` on the ASCII fragment: maps the
letters A-Z to a-z and leaves every other character unchanged. -/
def toLowerChar (c : Char) : Char :=
  if 'A' ≤ c ∧ c ≤ 'Z' then Char.ofNat (c.toNat + 32) else c

/-- `query.toLowerCase()` on the ASCII fragment. -/
def jsToLower (s : String) : String :=
  ⟨s.data.map toLowerChar⟩

/-- ASCII fragment of the whitespace class stripped by
`String.prototype.trim`. -/
def isJsWhitespace (c : Char) : Bool :=
  c = ' ' || c = '\t' || c = '\n' || c = '\r'

/-- `query.trim()` on the ASCII fragment: strips leading and trailing
whitespace. -/
def jsTrim (s : String) : String :=
  ⟨((s.data.dropWhile isJsWhitespace).reverse.dropWhile isJsWhitespace).reverse⟩

/-- `Array.prototype.join(sep)`. -/
def joinSep (sep : String) : List String → String
  | [] => ""
  | [s] => s
  | s :: rest => s ++ sep ++ joinSep sep rest

/-- One line of the degraded fallback formatting used when the sampling
call fails (the `catch` branch of the `server.createMessage` call). -/
def fallbackLine (i : Nat) (item : VideoItem) : String :=
  toString (i + 1) ++ ". **" ++ jsOrDefault item.title "Unknown" ++ "**\n" ++
    "   Channel: " ++ jsOrDefault item.channelTitle "Unknown" ++ "\n" ++
    "   Link: https://www.youtube.com/watch?v=" ++ jsOrDefault item.videoId "" ++ "\n"

/-- The indexed map underlying the fallback formatting. -/
def fallbackLines : Nat → List VideoItem → List String
  | _, [] => []
  | i, item :: rest => fallbackLine i item :: fallbackLines (i + 1) rest

/-- The degraded fallback formatting of the search results
(`res.data.items.map((item, index) => ...).join("\n")`). -/
def fallbackFormat (items : List VideoItem) : String :=
  joinSep "\n" (fallbackLines 0 items)

/-- The cache key of a search: `"search_" + query.toLowerCase()` (for the
already-trimmed query). -/
def searchCacheKey (query : String) : String :=
  "search_" ++ jsToLower query

/-- The `"No results found"` tool result for a query. -/
def noResults (query : String) : ToolResult :=
  ⟨"No results found for \"" ++ query ++ "\". Please try a different query."⟩

/-- The `search_videos` branch of the `CallToolRequestSchema` handler.
`rawQuery` is `String(request.params.arguments?.query || "")`;
`searchOutcome` is the outcome of the external `youtube.search.list` call
(its items, or a thrown error message); `samplingOutcome` is the outcome
of the nested `server.createMessage` sampling call.  Returns the tool
result (or thrown error), the updated cache, and whether the external
search was executed. -/
def searchVideosTool (cache : Cache ToolResult) (now : Int) (rawQuery : String)
    (searchOutcome : Except String (List VideoItem))
    (samplingOutcome : Except String String) :
    Except String ToolResult × Cache ToolResult × Bool :=
  let query := jsTrim rawQuery
  if query = "" ∨ query.length < 2 then
    (.error "Query must be at least 2 characters long", cache, false)
  else if query.length > 100 then
    (.error "Query must be 100 characters or less", cache, false)
  else
    let cacheKey := searchCacheKey query
    match getFromCache cache now cacheKey with
    | (some cachedResult, cache2) => (.ok cachedResult, cache2, false)
    | (none, cache2) =>
      match searchOutcome with
      | .error e => (.error ("Failed to search YouTube: " ++ e), cache2, true)
      | .ok items =>
        match items with
        | [] =>
          let result := noResults query
          (.ok result, saveToCache cache2 now cacheKey result CACHE_TTL, true)
        | _ :: _ =>
          let formattedResults :=
            match samplingOutcome with
            | .ok s => s
            | .error _ => fallbackFormat items
          let result : ToolResult :=
            ⟨if formattedResults.length > 0 then
                "# Search results for \"" ++ query ++ "\"\n\n" ++ formattedResults
              else
                "No results found for \"" ++ query ++ "\". Please try a different query."⟩
          (.ok result, saveToCache cache2 now cacheKey result CACHE_TTL, true)

/-! ## Helper lemmas -/

theorem valid_ne_empty (s : String) (hv : isValidSessionId s = true) : s ≠ "" := by
  intro h
  subst h
  exact absurd hv (by decide)

theorem expected_succ (c n : Nat) :
    (List.range (n + 1)).map (fun i => decide (c + i < RATE_LIMIT_MAX_REQUESTS))
      = decide (c < RATE_LIMIT_MAX_REQUESTS)
        :: (List.range n).map (fun i => decide (c + 1 + i < RATE_LIMIT_MAX_REQUESTS)) := by
  rw [List.range_succ_eq_map]
  simp only [List.map_cons, Nat.add_zero, List.map_map]
  congr 1
  apply List.map_congr_left
  intro i _
  simp only [Function.comp_apply, decide_eq_decide]
  omega

theorem runCalls_window (ip : String) (t0 : Int) :
    ∀ (ts : List Int) (rl : RateLimits) (c : Nat),
      getKey rl ip = some ⟨c, t0⟩ →
      (∀ t ∈ ts, t - t0 < RATE_LIMIT_WINDOW) →
      (runCalls rl ip ts).fst
        = (List.range ts.length).map (fun i => decide (c + i < RATE_LIMIT_MAX_REQUESTS)) := by
  intro ts
  induction ts with
  | nil =>
    intro rl c h hw
    simp [runCalls]
  | cons t ts ih =>
    intro rl c h hw
    have hwt : t - t0 < RATE_LIMIT_WINDOW := hw t (List.mem_cons_self t ts)
    have hwr : ∀ u ∈ ts, u - t0 < RATE_LIMIT_WINDOW :=
      fun u hu => hw u (List.mem_cons_of_mem t hu)
    by_cases hc : c < RATE_LIMIT_MAX_REQUESTS
    · have hstep : checkRateLimit rl t ip = (true, setKey rl ip ⟨c + 1, t0⟩) := by
        simp only [checkRateLimit, h]
        rw [if_neg (not_le.mpr hwt), if_pos hc]
      have htail := ih (setKey rl ip ⟨c + 1, t0⟩) (c + 1)
        (getKey_setKey_self rl ip ⟨c + 1, t0⟩) hwr
      simp only [runCalls, hstep, htail, List.length_cons, expected_succ,
        List.cons.injEq]
      exact ⟨by simp [hc], trivial⟩
    · have hstep : checkRateLimit rl t ip = (false, rl) := by
        simp only [checkRateLimit, h]
        rw [if_neg (not_le.mpr hwt), if_neg hc]
      have htail := ih rl c h hwr
      simp only [runCalls, hstep, htail, List.length_cons, expected_succ,
        List.cons.injEq]
      refine ⟨by simp [hc], ?_⟩
      apply List.map_congr_left
      intro i _
      simp only [decide_eq_decide]
      omega

theorem postMcp_format_err (sid : String) (hne : sid ≠ "")
    (hinv : isValidSessionId sid = false) (isInit : Bool) (m : Transports)
    (fresh : String) :
    postMcp true isInit (some sid) m fresh
      = (.error ⟨400, -32000, "Invalid session ID format"⟩, m) := by
  simp [postMcp, hne, hinv]

theorem getMcp_format_err (sid : String) (hne : sid ≠ "")
    (hinv : isValidSessionId sid = false) (m : Transports) :
    getMcp (some sid) m
      = (.error ⟨400, -32000, "Bad Request: Invalid session ID format"⟩, m) := by
  simp [getMcp, hne, hinv]

theorem deleteMcp_format_err (sid : String) (hne : sid ≠ "")
    (hinv : isValidSessionId sid = false) (m : Transports) :
    deleteMcp (some sid) m
      = (.error ⟨400, -32000, "Bad Request: Invalid session ID format"⟩, m) := by
  simp [deleteMcp, hne, hinv]

theorem postMcp_unknown (sid : String) (hv : isValidSessionId sid = true)
    (m : Transports) (hm : getKey m sid = none) (isInit : Bool) (fresh : String) :
    postMcp true isInit (some sid) m fresh
      = (.error ⟨400, -32000,
          "Bad Request: No valid session ID provided or not an initialize request"⟩, m) := by
  have hne := valid_ne_empty sid hv
  simp [postMcp, hne, hv, hm]

theorem getMcp_unknown (sid : String) (hv : isValidSessionId sid = true)
    (m : Transports) (hm : getKey m sid = none) :
    getMcp (some sid) m
      = (.error ⟨400, -32000, "Bad Request: Session not found or expired"⟩, m) := by
  have hne := valid_ne_empty sid hv
  simp [getMcp, hne, hv, hm]

theorem deleteMcp_unknown (sid : String) (hv : isValidSessionId sid = true)
    (m : Transports) (hm : getKey m sid = none) :
    deleteMcp (some sid) m
      = (.error ⟨400, -32000, "Bad Request: Session not found or already terminated"⟩, m) := by
  have hne := valid_ne_empty sid hv
  simp [deleteMcp, hne, hv, hm]

theorem string_length_append (a b : String) :
    (a ++ b).length = a.length + b.length := by
  cases a with
  | mk as =>
    cases b with
    | mk bs =>
      show (List.append as bs).length = as.length + bs.length
      simp

theorem jsToLower_length (s : String) : (jsToLower s).length = s.length := by
  show (s.data.map toLowerChar).length = s.data.length
  simp

theorem fallbackLine_length_pos (i : Nat) (item : VideoItem) :
    0 < (fallbackLine i item).length := by
  unfold fallbackLine
  simp only [string_length_append]
  have h : (0 : Nat) < ("   Channel: " : String).length := by decide
  omega

theorem fallbackFormat_length_pos (it : VideoItem) (rest : List VideoItem) :
    0 < (fallbackFormat (it :: rest)).length := by
  have hdef : fallbackFormat (it :: rest)
      = joinSep "\n" (fallbackLine 0 it :: fallbackLines 1 rest) := rfl
  rw [hdef]
  rcases h : fallbackLines 1 rest with _ | ⟨l, ls⟩
  · simpa [joinSep] using fallbackLine_length_pos 0 it
  · simp only [joinSep, string_length_append]
    have := fallbackLine_length_pos 0 it
    omega

/-! ## Claim theorems -/

/-- C1, counterexample: the claim states that a `get` at elapsed time
`t ≥ ttl` after the `put` is a miss, but the code's expiry test is
strict (`now > timestamp + ttl`), so a read at exactly `t = ttl`
(here: put at 0 with ttl 5, get at 5) still returns the value. -/
theorem cache_boundary_counterexample :
    (getFromCache (saveToCache ([] : Cache ToolResult) 0 "k" ⟨"v"⟩ 5) 5 "k").fst
      = some ⟨"v"⟩
    ∧ (5 : Int) - 0 ≥ 5 := by decide

/-- C1 (amended): after `saveToCache(k, v, ttl)` at time `tput`, a
`getFromCache(k)` at time `tget` returns `v` and leaves the cache
unchanged whenever `tget ≤ tput + ttl` (elapsed time at most `ttl`),
and is a miss that also purges the entry whenever `tget > tput + ttl`
(elapsed time strictly greater than `ttl`). -/
theorem cache_ttl_semantics {α : Type} (cache : Cache α) (k : String) (v : α)
    (ttl tput tget : Int) :
    (tget ≤ tput + ttl →
      getFromCache (saveToCache cache tput k v ttl) tget k
        = (some v, saveToCache cache tput k v ttl))
    ∧ (tput + ttl < tget →
      getFromCache (saveToCache cache tput k v ttl) tget k
        = (none, eraseKey (saveToCache cache tput k v ttl) k)
      ∧ getKey (eraseKey (saveToCache cache tput k v ttl) k) k = none) := by
  constructor
  · intro h
    simp only [getFromCache, saveToCache, getKey_setKey_self]
    rw [if_neg (by omega)]
  · intro h
    refine ⟨?_, getKey_eraseKey_self _ k⟩
    simp only [getFromCache, saveToCache, getKey_setKey_self]
    rw [if_pos (by omega)]

/-- Witness for C1's amended theorem at a concrete input. -/
theorem cache_ttl_semantics_witness :
    getFromCache (saveToCache ([] : Cache ToolResult) 0 "k" ⟨"w"⟩ 10) 3 "k"
      = (some ⟨"w"⟩, saveToCache ([] : Cache ToolResult) 0 "k" ⟨"w"⟩ 10) :=
  (cache_ttl_semantics [] "k" (⟨"w"⟩ : ToolResult) 10 0 3).1 (by decide)

/-- C2: starting from an address with no window, a sequence of calls all
lying within `RATE_LIMIT_WINDOW` of the first is admitted exactly for the
first `RATE_LIMIT_MAX_REQUESTS` calls and denied from the
`(RATE_LIMIT_MAX_REQUESTS + 1)`-th on; an existing window is reset to a
fresh window with count 1 exactly when `now - windowStart ≥
RATE_LIMIT_WINDOW`; and within a live window a request is admitted iff
`requests < RATE_LIMIT_MAX_REQUESTS`, in which case the count increments,
while otherwise state is unchanged and the call is denied. -/
theorem rateLimit_window_semantics :
    (∀ (rl : RateLimits) (ip : String) (t0 : Int) (rest : List Int),
      getKey rl ip = none →
      (∀ t ∈ rest, t - t0 < RATE_LIMIT_WINDOW) →
      (runCalls rl ip (t0 :: rest)).fst
        = (List.range (rest.length + 1)).map
            (fun i => decide (i < RATE_LIMIT_MAX_REQUESTS)))
    ∧ (∀ (rl : RateLimits) (now : Int) (ip : String) (e : RateLimitEntry),
      getKey rl ip = some e →
      now - e.windowStart ≥ RATE_LIMIT_WINDOW →
      checkRateLimit rl now ip = (true, setKey rl ip ⟨1, now⟩))
    ∧ (∀ (rl : RateLimits) (now : Int) (ip : String) (e : RateLimitEntry),
      getKey rl ip = some e →
      now - e.windowStart < RATE_LIMIT_WINDOW →
      ((checkRateLimit rl now ip).fst = true ↔ e.requests < RATE_LIMIT_MAX_REQUESTS)
      ∧ (e.requests < RATE_LIMIT_MAX_REQUESTS →
          checkRateLimit rl now ip
            = (true, setKey rl ip ⟨e.requests + 1, e.windowStart⟩))
      ∧ (RATE_LIMIT_MAX_REQUESTS ≤ e.requests →
          checkRateLimit rl now ip = (false, rl))) := by
  refine ⟨?_, ?_, ?_⟩
  · intro rl ip t0 rest hnone hw
    have hfirst : checkRateLimit rl t0 ip = (true, setKey rl ip ⟨1, t0⟩) := by
      simp only [checkRateLimit, hnone]
    have htail := runCalls_window ip t0 rest (setKey rl ip ⟨1, t0⟩) 1
      (getKey_setKey_self rl ip ⟨1, t0⟩) hw
    have hstep0 : (runCalls rl ip (t0 :: rest)).fst
        = true :: (List.range rest.length).map
            (fun i => decide (1 + i < RATE_LIMIT_MAX_REQUESTS)) := by
      simp only [runCalls, hfirst, htail]
    rw [hstep0]
    have hr : (List.range (rest.length + 1)).map
          (fun i => decide (i < RATE_LIMIT_MAX_REQUESTS))
        = (List.range (rest.length + 1)).map
          (fun i => decide (0 + i < RATE_LIMIT_MAX_REQUESTS)) := by
      apply List.map_congr_left
      intro i _
      simp only [decide_eq_decide]
      omega
    rw [hr, expected_succ]
    have h0 : decide (0 < RATE_LIMIT_MAX_REQUESTS) = true := by decide
    rw [h0]
  · intro rl now ip e he hreset
    obtain ⟨c, ws⟩ := e
    simp only [checkRateLimit, he]
    rw [if_pos hreset]
  · intro rl now ip e he hlive
    obtain ⟨c, ws⟩ := e
    by_cases hc : c < RATE_LIMIT_MAX_REQUESTS
    · have hstep : checkRateLimit rl now ip
          = (true, setKey rl ip ⟨c + 1, ws⟩) := by
        simp only [checkRateLimit, he]
        rw [if_neg (not_le.mpr hlive), if_pos hc]
      refine ⟨?_, fun _ => hstep, fun hle => absurd hc (not_lt.mpr hle)⟩
      rw [hstep]
      simpa using hc
    · have hstep : checkRateLimit rl now ip = (false, rl) := by
        simp only [checkRateLimit, he]
        rw [if_neg (not_le.mpr hlive), if_neg hc]
      refine ⟨?_, fun hlt => absurd hlt hc, fun _ => hstep⟩
      rw [hstep]
      simpa using hc

/-- Witness for C2's theorem at a concrete input. -/
theorem rateLimit_window_semantics_witness :
    (runCalls ([] : RateLimits) "a" (0 :: [1, 2])).fst
      = (List.range ([1, 2].length + 1)).map
          (fun i => decide (i < RATE_LIMIT_MAX_REQUESTS)) :=
  rateLimit_window_semantics.1 [] "a" 0 [1, 2] rfl (by decide)

/-- C3, counterexample: the claim states every denial carries a
retry-after equal to the remaining window time `windowStart +
RATE_LIMIT_WINDOW - now`; here a client whose window started at 0 and
has exhausted its 100 requests is denied at `now = 30000` with
`retryAfter = 60` seconds (60000 ms), while the remaining window time is
only 30000 ms. -/
theorem retryAfter_not_remaining_counterexample :
    ((rateLimitMiddleware [("c", ⟨100, 0⟩)] 30000 "c").fst).map
        (fun d => d.retryAfter) = some 60
    ∧ (60 : Int) * 1000 ≠ 0 + RATE_LIMIT_WINDOW - 30000 := by decide

/-- C3 (amended): every denial carries the constant retry-after
`Math.ceil(RATE_LIMIT_WINDOW / 1000) = 60` seconds — the full window
length, which (whenever the denied window started no later than `now`)
is an upper bound on, but not in general equal to, the remaining window
time `windowStart + RATE_LIMIT_WINDOW - now`; a denial leaves the window
map unchanged. -/
theorem retryAfter_constant_bound (rl : RateLimits) (now : Int) (ip : String)
    (d : RateLimitDenial) (hd : (rateLimitMiddleware rl now ip).fst = some d) :
    d.retryAfter = 60
    ∧ (rateLimitMiddleware rl now ip).snd = rl
    ∧ ∃ e, getKey rl ip = some e
        ∧ RATE_LIMIT_MAX_REQUESTS ≤ e.requests
        ∧ now - e.windowStart < RATE_LIMIT_WINDOW
        ∧ (e.windowStart ≤ now →
            e.windowStart + RATE_LIMIT_WINDOW - now ≤ d.retryAfter * 1000) := by
  rcases hg : getKey rl ip with _ | e
  · exfalso
    have : checkRateLimit rl now ip = (true, setKey rl ip ⟨1, now⟩) := by
      simp only [checkRateLimit, hg]
    simp [rateLimitMiddleware, this] at hd
  · obtain ⟨c, ws⟩ := e
    by_cases h1 : now - ws ≥ RATE_LIMIT_WINDOW
    · exfalso
      have : checkRateLimit rl now ip = (true, setKey rl ip ⟨1, now⟩) := by
        simp only [checkRateLimit, hg]
        rw [if_pos h1]
      simp [rateLimitMiddleware, this] at hd
    · by_cases h2 : c < RATE_LIMIT_MAX_REQUESTS
      · exfalso
        have : checkRateLimit rl now ip = (true, setKey rl ip ⟨c + 1, ws⟩) := by
          simp only [checkRateLimit, hg]
          rw [if_neg h1, if_pos h2]
        simp [rateLimitMiddleware, this] at hd
      · have hstep : checkRateLimit rl now ip = (false, rl) := by
          simp only [checkRateLimit, hg]
          rw [if_neg h1, if_neg h2]
        have hmw : rateLimitMiddleware rl now ip
            = (some ⟨429, -32000, "Too many requests. Please try again later.",
                mathCeilDiv RATE_LIMIT_WINDOW 1000⟩, rl) := by
          simp [rateLimitMiddleware, hstep]
        rw [hmw] at hd
        have hd2 : d = ⟨429, -32000, "Too many requests. Please try again later.",
            mathCeilDiv RATE_LIMIT_WINDOW 1000⟩ := by
          injection hd with h
          exact h.symm
        subst hd2
        have hceil : mathCeilDiv RATE_LIMIT_WINDOW 1000 = 60 := by decide
        refine ⟨hceil, by rw [hmw], ⟨⟨c, ws⟩, rfl, not_lt.mp h2, not_le.mp h1, ?_⟩⟩
        intro hws
        dsimp only at hws ⊢
        rw [hceil]
        have hW : RATE_LIMIT_WINDOW = 60000 := rfl
        rw [hW]
        omega

/-- Witness for C3's amended theorem at a concrete input. -/
theorem retryAfter_constant_bound_witness :
    (rateLimitMiddleware [("c", (⟨100, 5⟩ : RateLimitEntry))] 10 "c").snd
      = [("c", (⟨100, 5⟩ : RateLimitEntry))] :=
  (retryAfter_constant_bound [("c", ⟨100, 5⟩)] 10 "c"
    ⟨429, -32000, "Too many requests. Please try again later.", 60⟩
    (by decide)).2.1

/-- C4: a POST, GET or DELETE `/mcp` request carrying a nonempty session
id that fails `isValidSessionId` is answered with the 400 format error,
with the session registry returned unchanged and the response
independent of the registry contents (the handler decides before any
registry access); this rejection differs from the response given to a
well-formed but unknown session id. -/
theorem malformed_sid_rejected (sid : String) (hne : sid ≠ "")
    (hinv : isValidSessionId sid = false) :
    (∀ (isInit : Bool) (m : Transports) (fresh : String),
      postMcp true isInit (some sid) m fresh
        = (.error ⟨400, -32000, "Invalid session ID format"⟩, m))
    ∧ (∀ m : Transports,
      getMcp (some sid) m
        = (.error ⟨400, -32000, "Bad Request: Invalid session ID format"⟩, m))
    ∧ (∀ m : Transports,
      deleteMcp (some sid) m
        = (.error ⟨400, -32000, "Bad Request: Invalid session ID format"⟩, m))
    ∧ (∀ (m : Transports) (isInit : Bool) (fresh : String) (sid2 : String),
      isValidSessionId sid2 = true → getKey m sid2 = none →
      (postMcp true isInit (some sid) m fresh).fst
          ≠ (postMcp true isInit (some sid2) m fresh).fst
        ∧ (getMcp (some sid) m).fst ≠ (getMcp (some sid2) m).fst
        ∧ (deleteMcp (some sid) m).fst ≠ (deleteMcp (some sid2) m).fst) := by
  refine ⟨fun isInit m fresh => postMcp_format_err sid hne hinv isInit m fresh,
    fun m => getMcp_format_err sid hne hinv m,
    fun m => deleteMcp_format_err sid hne hinv m,
    ?_⟩
  intro m isInit fresh sid2 hv2 hm2
  refine ⟨?_, ?_, ?_⟩
  · rw [postMcp_format_err sid hne hinv isInit m fresh,
      postMcp_unknown sid2 hv2 m hm2 isInit fresh]
    intro h
    simp only [Except.error.injEq, ErrResp.mk.injEq] at h
    exact absurd h.2.2 (by decide)
  · rw [getMcp_format_err sid hne hinv m, getMcp_unknown sid2 hv2 m hm2]
    intro h
    simp only [Except.error.injEq, ErrResp.mk.injEq] at h
    exact absurd h.2.2 (by decide)
  · rw [deleteMcp_format_err sid hne hinv m, deleteMcp_unknown sid2 hv2 m hm2]
    intro h
    simp only [Except.error.injEq, ErrResp.mk.injEq] at h
    exact absurd h.2.2 (by decide)

/-- Witness for C4's theorem at a concrete input. -/
theorem malformed_sid_rejected_witness :
    getMcp (some "zzz") []
      = (.error ⟨400, -32000, "Bad Request: Invalid session ID format"⟩, []) :=
  (malformed_sid_rejected "zzz" (by decide) (by decide)).2.1 []

/-- C5: for a well-formed session id, a DELETE of an existing session
succeeds and removes the registry entry, and a second DELETE of the same
id is answered with the 400 "Session not found or already terminated"
rejection (not an internal 500 error) leaving the registry unchanged;
a DELETE of an id absent from the registry always yields that not-found
response with the registry untouched. -/
theorem terminate_idempotent (m : Transports) (sid : String)
    (hv : isValidSessionId sid = true) :
    (∀ tr, getKey m sid = some tr →
      deleteMcp (some sid) m = (.ok sid, eraseKey m sid)
      ∧ getKey (eraseKey m sid) sid = none
      ∧ deleteMcp (some sid) (eraseKey m sid)
          = (.error ⟨400, -32000,
              "Bad Request: Session not found or already terminated"⟩,
             eraseKey m sid))
    ∧ (getKey m sid = none →
      deleteMcp (some sid) m
        = (.error ⟨400, -32000,
            "Bad Request: Session not found or already terminated"⟩, m)) := by
  have hne := valid_ne_empty sid hv
  constructor
  · intro tr htr
    refine ⟨by simp [deleteMcp, hne, hv, htr], getKey_eraseKey_self m sid,
      deleteMcp_unknown sid hv (eraseKey m sid) (getKey_eraseKey_self m sid)⟩
  · intro hnone
    exact deleteMcp_unknown sid hv m hnone

/-- Witness for C5's theorem at a concrete input. -/
theorem terminate_idempotent_witness :
    deleteMcp (some "aaaaaaaa-aaaa-aaaa-aaaa-aaaaaaaaaaaa")
        [("aaaaaaaa-aaaa-aaaa-aaaa-aaaaaaaaaaaa",
          (⟨some "aaaaaaaa-aaaa-aaaa-aaaa-aaaaaaaaaaaa"⟩ : Transport))]
      = (.ok "aaaaaaaa-aaaa-aaaa-aaaa-aaaaaaaaaaaa",
         eraseKey
           [("aaaaaaaa-aaaa-aaaa-aaaa-aaaaaaaaaaaa",
             (⟨some "aaaaaaaa-aaaa-aaaa-aaaa-aaaaaaaaaaaa"⟩ : Transport))]
           "aaaaaaaa-aaaa-aaaa-aaaa-aaaaaaaaaaaa") :=
  ((terminate_idempotent _ _ (by decide)).1
    ⟨some "aaaaaaaa-aaaa-aaaa-aaaa-aaaaaaaaaaaa"⟩ (by decide)).1

/-- C6, counterexample: the claim states the reaper also terminates
sessions whose last activity exceeds an idle threshold; but the code
keeps no last-activity data and its transport sweep ignores the clock:
a healthy session entry survives a cleanup pass run at an arbitrarily
late time (`now = 10^12` ms). -/
theorem reaper_no_idle_termination_counterexample :
    (reaperPass
        ⟨[("aaaaaaaa-aaaa-aaaa-aaaa-aaaaaaaaaaaa",
           ⟨some "aaaaaaaa-aaaa-aaaa-aaaa-aaaaaaaaaaaa"⟩)], [], []⟩
        1000000000000).transports
      = [("aaaaaaaa-aaaa-aaaa-aaaa-aaaaaaaaaaaa",
          ⟨some "aaaaaaaa-aaaa-aaaa-aaaa-aaaaaaaaaaaa"⟩)] := by decide

/-- C6 (amended): each pass of the periodic cleanup removes exactly the
cache entries past TTL (`now > timestamp + ttl`), exactly the rate
windows idle past the window length (`now - windowStart ≥
RATE_LIMIT_WINDOW`), and exactly the transports that are defunct (an
unset or empty `sessionId`, or one disagreeing with the registry key);
the transport sweep is independent of the current time and performs no
idle-threshold termination. -/
theorem reaper_pass_semantics (st : ServerState) (now : Int) :
    (∀ (k : String) (e : CacheEntry ToolResult),
      (k, e) ∈ (reaperPass st now).searchCache
        ↔ (k, e) ∈ st.searchCache ∧ ¬ (now > e.timestamp + e.ttl))
    ∧ (∀ (k : String) (e : RateLimitEntry),
      (k, e) ∈ (reaperPass st now).rateLimits
        ↔ (k, e) ∈ st.rateLimits ∧ ¬ (now - e.windowStart ≥ RATE_LIMIT_WINDOW))
    ∧ (∀ (k : String) (tr : Transport),
      (k, tr) ∈ (reaperPass st now).transports
        ↔ (k, tr) ∈ st.transports ∧ transportHealthy k tr = true)
    ∧ (∀ now2 : Int, (reaperPass st now).transports = (reaperPass st now2).transports) := by
  refine ⟨?_, ?_, ?_, fun now2 => rfl⟩
  · intro k e
    simp [reaperPass, cleanupCache, List.mem_filter]
  · intro k e
    simp [reaperPass, cleanupRateLimits, List.mem_filter]
  · intro k tr
    simp [reaperPass, cleanupTransports, List.mem_filter]

/-- C7, counterexample: the claim states serving `GET /health` leaves the
rate-window map unchanged, but the global rate-limiting middleware runs
on every request including `/health`: serving it from an empty state
creates a window for the caller's address. -/
theorem health_mutates_rateLimits_counterexample :
    (serveHealth ⟨[], [], []⟩ 5 "9.9.9.9" 1 2 3).snd.rateLimits
      = [("9.9.9.9", ⟨1, 5⟩)]
    ∧ [("9.9.9.9", (⟨1, 5⟩ : RateLimitEntry))] ≠ ([] : RateLimits) := by decide

/-- C7 (amended): serving `GET /health` reports the active session count,
cache entry count, uptime and memory figures, and leaves the session
registry and the result cache unchanged; the rate-window map, however,
is updated exactly as by the global rate-limiting middleware (the
handler itself writes nothing). -/
theorem health_readonly_except_middleware (st : ServerState) (now : Int)
    (ip : String) (uptime memUsed memTotal : Int) :
    (serveHealth st now ip uptime memUsed memTotal).snd.transports = st.transports
    ∧ (serveHealth st now ip uptime memUsed memTotal).snd.searchCache = st.searchCache
    ∧ (serveHealth st now ip uptime memUsed memTotal).snd.rateLimits
        = (rateLimitMiddleware st.rateLimits now ip).snd
    ∧ (∀ b, (serveHealth st now ip uptime memUsed memTotal).fst = .ok b →
        b = ⟨"ok", st.transports.length, st.searchCache.length,
             uptime, memUsed, memTotal⟩) := by
  rcases h : rateLimitMiddleware st.rateLimits now ip with ⟨od, rl2⟩
  rcases od with _ | d
  · refine ⟨by simp [serveHealth, h], by simp [serveHealth, h],
      by simp [serveHealth, h], ?_⟩
    intro b hb
    simp only [serveHealth, h] at hb
    injection hb with hb2
    exact hb2.symm
  · refine ⟨by simp [serveHealth, h], by simp [serveHealth, h],
      by simp [serveHealth, h], ?_⟩
    intro b hb
    simp only [serveHealth, h] at hb
    exact absurd hb (by simp)

/-- Witness for C7's amended theorem at a concrete input. -/
theorem health_readonly_witness :
    (⟨"ok", 0, 0, 7, 8, 9⟩ : HealthBody)
      = ⟨"ok", ([] : Transports).length, ([] : Cache ToolResult).length, 7, 8, 9⟩ :=
  (health_readonly_except_middleware ⟨[], [], []⟩ 0 "ip" 7 8 9).2.2.2
    ⟨"ok", 0, 0, 7, 8, 9⟩ (by rfl)

/-- The tool result that a cache-missing `search_videos` call stores and
returns for a given trimmed query, search items and sampling outcome
(proof-layer abbreviation of the handler's success branches). -/
def searchResultOf (query : String) (items : List VideoItem)
    (samp : Except String String) : ToolResult :=
  match items with
  | [] => noResults query
  | _ :: _ =>
    let formattedResults :=
      match samp with
      | .ok s => s
      | .error _ => fallbackFormat items
    ⟨if formattedResults.length > 0 then
        "# Search results for \"" ++ query ++ "\"\n\n" ++ formattedResults
      else
        "No results found for \"" ++ query ++ "\". Please try a different query."⟩

theorem searchVideosTool_miss (cache : Cache ToolResult) (now : Int)
    (rawQuery : String) (items : List VideoItem) (samp : Except String String)
    (h2 : 2 ≤ (jsTrim rawQuery).length) (h100 : (jsTrim rawQuery).length ≤ 100)
    (hmiss : getKey cache (searchCacheKey (jsTrim rawQuery)) = none) :
    searchVideosTool cache now rawQuery (.ok items) samp
      = (.ok (searchResultOf (jsTrim rawQuery) items samp),
         saveToCache cache now (searchCacheKey (jsTrim rawQuery))
           (searchResultOf (jsTrim rawQuery) items samp) CACHE_TTL,
         true) := by
  have hne0 : ¬ (jsTrim rawQuery = "" ∨ (jsTrim rawQuery).length < 2) := by
    rintro (h | h)
    · rw [h] at h2
      exact absurd h2 (by decide)
    · omega
  have h100' : ¬ ((jsTrim rawQuery).length > 100) := by omega
  have hgfc : getFromCache cache now (searchCacheKey (jsTrim rawQuery))
      = (none, cache) := by
    simp [getFromCache, hmiss]
  rcases items with _ | ⟨it, rest⟩
  · simp only [searchVideosTool, searchResultOf]
    rw [if_neg hne0, if_neg h100']
    simp only [hgfc]
  · simp only [searchVideosTool, searchResultOf]
    rw [if_neg hne0, if_neg h100']
    simp only [hgfc]

/-- C8: when the query is well-formed, the cache misses, the external
search succeeded with a nonempty item list, and the nested sampling call
fails (for any reason, including its timeout), the `search_videos`
handler returns a well-formed tool result containing the degraded
fallback formatting of the search results (and caches it) instead of
propagating the failure. -/
theorem sampling_fallback (cache : Cache ToolResult) (now : Int)
    (rawQuery : String) (items : List VideoItem) (err : String)
    (h2 : 2 ≤ (jsTrim rawQuery).length) (h100 : (jsTrim rawQuery).length ≤ 100)
    (hmiss : getKey cache (searchCacheKey (jsTrim rawQuery)) = none)
    (hne : items ≠ []) :
    searchVideosTool cache now rawQuery (.ok items) (.error err)
      = (.ok ⟨"# Search results for \"" ++ jsTrim rawQuery ++ "\"\n\n"
              ++ fallbackFormat items⟩,
         saveToCache cache now (searchCacheKey (jsTrim rawQuery))
           ⟨"# Search results for \"" ++ jsTrim rawQuery ++ "\"\n\n"
             ++ fallbackFormat items⟩ CACHE_TTL,
         true) := by
  rcases items with _ | ⟨it, rest⟩
  · exact absurd rfl hne
  have hres : searchResultOf (jsTrim rawQuery) (it :: rest) (.error err)
      = ⟨"# Search results for \"" ++ jsTrim rawQuery ++ "\"\n\n"
          ++ fallbackFormat (it :: rest)⟩ := by
    simp only [searchResultOf]
    rw [if_pos (fallbackFormat_length_pos it rest)]
  rw [searchVideosTool_miss cache now rawQuery (it :: rest) (.error err) h2 h100 hmiss,
    hres]

/-- Witness for C8's theorem at a concrete input. -/
theorem sampling_fallback_witness :
    searchVideosTool [] 0 "hi"
        (.ok [⟨some "T", none, none, some "C", none, some "v"⟩]) (.error "boom")
      = (.ok ⟨"# Search results for \"" ++ jsTrim "hi" ++ "\"\n\n"
              ++ fallbackFormat [⟨some "T", none, none, some "C", none, some "v"⟩]⟩,
         saveToCache [] 0 (searchCacheKey (jsTrim "hi"))
           ⟨"# Search results for \"" ++ jsTrim "hi" ++ "\"\n\n"
             ++ fallbackFormat [⟨some "T", none, none, some "C", none, some "v"⟩]⟩
           CACHE_TTL,
         true) :=
  sampling_fallback [] 0 "hi" [⟨some "T", none, none, some "C", none, some "v"⟩]
    "boom" (by decide) (by decide) (by decide) (by decide)

/-- C9: the search cache key is the deterministic function
`"search_" + toLowerCase(trimmed query)`, so two queries equal up to
case yield the same key; and when a second such query arrives within the
TTL of a first call that executed the search, the second call returns
the first call's cached result, leaves the cache unchanged, and never
invokes the external search (for any hypothetical outcome it would have
had). -/
theorem cache_hit_skips_search
    (cache : Cache ToolResult) (now1 now2 : Int) (q1 q2 : String)
    (items : List VideoItem) (samp1 : Except String String)
    (s2 : Except String (List VideoItem)) (samp2 : Except String String)
    (h2 : 2 ≤ (jsTrim q1).length) (h100 : (jsTrim q1).length ≤ 100)
    (hmiss : getKey cache (searchCacheKey (jsTrim q1)) = none)
    (hcase : jsToLower (jsTrim q1) = jsToLower (jsTrim q2))
    (httl : now2 ≤ now1 + CACHE_TTL) :
    searchCacheKey (jsTrim q1) = searchCacheKey (jsTrim q2)
    ∧ ∃ r : ToolResult,
      (searchVideosTool cache now1 q1 (.ok items) samp1).fst = .ok r
      ∧ (searchVideosTool cache now1 q1 (.ok items) samp1).2.2 = true
      ∧ searchVideosTool ((searchVideosTool cache now1 q1 (.ok items) samp1).2.1)
            now2 q2 s2 samp2
          = (.ok r, (searchVideosTool cache now1 q1 (.ok items) samp1).2.1, false) := by
  have hkey : searchCacheKey (jsTrim q1) = searchCacheKey (jsTrim q2) := by
    unfold searchCacheKey
    rw [hcase]
  refine ⟨hkey, ?_⟩
  have hfst := searchVideosTool_miss cache now1 q1 items samp1 h2 h100 hmiss
  have hlen2 : (jsTrim q2).length = (jsTrim q1).length := by
    have hc := congrArg String.length hcase
    rw [jsToLower_length, jsToLower_length] at hc
    exact hc.symm
  have hne2 : ¬ (jsTrim q2 = "" ∨ (jsTrim q2).length < 2) := by
    rintro (h | h)
    · rw [h] at hlen2
      have h0 : ("" : String).length = 0 := rfl
      rw [h0] at hlen2
      omega
    · omega
  have h100'2 : ¬ ((jsTrim q2).length > 100) := by omega
  have hgfc2 : getFromCache
      (saveToCache cache now1 (searchCacheKey (jsTrim q1))
        (searchResultOf (jsTrim q1) items samp1) CACHE_TTL)
      now2 (searchCacheKey (jsTrim q1))
      = (some (searchResultOf (jsTrim q1) items samp1),
         saveToCache cache now1 (searchCacheKey (jsTrim q1))
           (searchResultOf (jsTrim q1) items samp1) CACHE_TTL) := by
    simp only [getFromCache, saveToCache, getKey_setKey_self]
    rw [if_neg (not_lt.mpr httl)]
  refine ⟨searchResultOf (jsTrim q1) items samp1, by rw [hfst], by rw [hfst], ?_⟩
  rw [hfst]
  simp only [searchVideosTool]
  rw [if_neg hne2, if_neg h100'2, ← hkey]
  simp only [hgfc2]

/-- Witness for C9's theorem at a concrete input. -/
theorem cache_hit_skips_search_witness :
    searchCacheKey (jsTrim "AbC") = searchCacheKey (jsTrim "aBc") :=
  (cache_hit_skips_search [] 0 1 "AbC" "aBc" [] (.ok "s") (.error "x") (.ok "s")
    (by decide) (by decide) (by decide) (by decide) (by decide)).1

/-- C10: `isValidSessionId` accepts exactly the 8-4-4-4-12 hyphenated
lowercase hexadecimal pattern; every identifier of the form produced by
the server's `randomUUID` generator passes the check; and any nonempty
identifier containing an uppercase hexadecimal letter is rejected with
the malformed-format error on POST, GET and DELETE `/mcp`. -/
theorem session_id_format_check :
    (∀ s : String, isValidSessionId s = true ↔ MatchesUuidPattern s)
    ∧ (∀ s : String, RandomUUIDOutput s → isValidSessionId s = true)
    ∧ (∀ (s : String) (c : Char), c ∈ s.data → 'A' ≤ c → c ≤ 'F' →
        ∀ (m : Transports) (isInit : Bool) (fresh : String),
          postMcp true isInit (some s) m fresh
            = (.error ⟨400, -32000, "Invalid session ID format"⟩, m)
          ∧ getMcp (some s) m
            = (.error ⟨400, -32000, "Bad Request: Invalid session ID format"⟩, m)
          ∧ deleteMcp (some s) m
            = (.error ⟨400, -32000, "Bad Request: Invalid session ID format"⟩, m)) := by
  refine ⟨isValidSessionId_iff, randomUUID_valid, ?_⟩
  intro s c hc hA hF m isInit fresh
  have hinv := isValidSessionId_uppercase s c hc hA hF
  have hne : s ≠ "" := by
    intro h
    subst h
    simp at hc
  exact ⟨postMcp_format_err s hne hinv isInit m fresh,
    getMcp_format_err s hne hinv m,
    deleteMcp_format_err s hne hinv m⟩

/-- Witness for C10's theorem at a concrete input. -/
theorem session_id_format_check_witness :
    isValidSessionId "aaaaaaaa-aaaa-4aaa-8aaa-aaaaaaaaaaaa" = true :=
  session_id_format_check.2.1 "aaaaaaaa-aaaa-4aaa-8aaa-aaaaaaaaaaaa"
    ⟨['a','a','a','a','a','a','a','a'], ['a','a','a','a'], ['4','a','a','a'],
     ['8','a','a','a'], ['a','a','a','a','a','a','a','a','a','a','a','a'],
     by decide, by decide, by decide, by decide, by decide, by decide,
     by decide, ⟨'4', by decide, by decide⟩, ⟨'8', by decide, by decide⟩⟩

end Mcp
